import Mathlib

/-!
Verification development for the Excel-to-SystemRDL generator
(`Paso 2-4/parseo_excel.py`).  The script reads three sheets
(Blocks, Registers, Fields), groups registers by block name and fields by
register name, and emits nested `addrmap` / `reg` / `field` constructs.
Below, the script's computation after the sheets are loaded is embedded
shallowly: pandas cells become `CellVal`, rows become structures, and the
emitter becomes a pure function into `Except String String` (the error
carrying the message of the Python exception that would abort the run).
-/

/-- A spreadsheet cell as the script observes it after `pd.read_excel`:
either missing (`NaN`), an integer, or a string.  (Float cells other than
`NaN` do not occur in the inputs the claims quantify over.) -/
inductive CellVal where
  | na
  | intVal (n : Int)
  | strVal (s : String)
deriving DecidableEq, Repr

/-- `pd.notna` on a cell. -/
def pdNotna : CellVal → Bool
  | .na => false
  | _ => true

/-- Python `str()` on a cell value (`str(nan)` is `"nan"`). -/
def pyStr : CellVal → String
  | .na => "nan"
  | .intVal n => toString n
  | .strVal s => s

/-- Drop leading and trailing whitespace characters from a character list. -/
def stripChars (l : List Char) : List Char :=
  ((l.dropWhile Char.isWhitespace).reverse.dropWhile Char.isWhitespace).reverse

/-- Python `str.strip()` (ASCII whitespace; the exotic Unicode whitespace
Python additionally strips does not occur in the inputs considered). -/
def pyStrip (s : String) : String :=
  ⟨stripChars s.data⟩

/-- Python `str.replace(a, b)` for single-character `a`, `b`: replace every
occurrence of the character `a` by `b`. -/
def pyReplaceChar (s : String) (a b : Char) : String :=
  ⟨s.data.map fun c => if c = a then b else c⟩

/-- Value of a nonempty all-digit character list read in base ten. -/
def parseNatDigits (l : List Char) : Option Nat :=
  if l ≠ [] ∧ l.all Char.isDigit then
    some (l.foldl (fun acc c => 10 * acc + (c.toNat - '0'.toNat)) 0)
  else none

/-- Python `int(s)` on a string: surrounding whitespace is ignored, then a
decimal integer literal with an optional minus sign is parsed; anything
else fails.  (The `+` sign and digit-group underscores Python also accepts
play no role here.) -/
def pyIntOfString (s : String) : Option Int :=
  match stripChars s.data with
  | '-' :: rest => (parseNatDigits rest).map fun n => -(n : Int)
  | l => (parseNatDigits l).map fun n => (n : Int)

/-- Python `int(x)` on a cell value: identity on integers, decimal parsing
on strings, an exception (modelled as `.error`) on `NaN` or an unparseable
string. -/
def pyInt : CellVal → Except String Int
  | .intVal n => .ok n
  | .strVal s =>
    match pyIntOfString s with
    | some n => .ok n
    | none => .error ("invalid literal for int() with base 10: " ++ s)
  | .na => .error "cannot convert float NaN to integer"

/-- Python `str.lower()`, character by character (the strings involved are
ASCII). -/
def pyLower (s : String) : String :=
  ⟨s.data.map Char.toLower⟩

/-- The `access_map` dictionary of `access_to_rdl` (line 16-21 of the
script). -/
def access_map : List (String × (String × Option String)) :=
  [("rw", ("rw", none)),
   ("ro", ("r", none)),
   ("wo", ("w", none)),
   ("w1c", ("w", some "woclr"))]

/-- `access_to_rdl(access_type)`: lower-case the code and look it up,
falling back to `('r', None)` (line 22 of the script). -/
def access_to_rdl (access_type : String) : String × Option String :=
  (List.lookup (pyLower access_type) access_map).getD ("r", none)

/-- `sanitize_name(name)`: `str(name).strip().replace(' ', '_').replace('-', '_')`
(line 29 of the script). -/
def sanitize_name (name : CellVal) : String :=
  pyReplaceChar (pyReplaceChar (pyStrip (pyStr name)) ' ' '_') '-' '_'

/-- Binary digits of a natural number, most significant first; `"0"` for
zero — the digit string `format(v, 'b')` produces in Python. -/
def natBinDigits (v : Nat) : List Char :=
  if v = 0 then ['0']
  else ((Nat.digits 2 v).map fun d => if d = 1 then '1' else '0').reverse

/-- Left-pad a character list with `'0'` up to width `w`. -/
def leftPadZeros (w : Nat) (l : List Char) : List Char :=
  List.replicate (w - l.length) '0' ++ l

/-- Python `format(v, '0{w}b')` for a natural number `v`. -/
def pyFormatBinNat (v w : Nat) : String :=
  ⟨leftPadZeros w (natBinDigits v)⟩

/-- Python `format(v, '0{w}b')` for an integer `v`: negative values keep a
leading sign and the zero padding counts the sign toward the field width. -/
def pyFormatBin (v : Int) (w : Nat) : String :=
  if v < 0 then "-" ++ ⟨leftPadZeros (w - 1) (natBinDigits v.natAbs)⟩
  else pyFormatBinNat v.toNat w

/-- `format(reset_value, f'0{width}b')` as the script evaluates it (line
152): the width comes from `int(...)`, so it is an `Int`; a negative width
makes the format specifier invalid and raises. -/
def pyFormatBinSpec (v w : Int) : Except String String :=
  if w < 0 then .error "Invalid format specifier"
  else .ok (pyFormatBin v w.toNat)

/-- One row of the `Blocks` sheet.  (`Size` is never read by the script.) -/
structure BlockRow where
  blockName : CellVal
  baseAddress : CellVal
  description : CellVal
deriving DecidableEq, Repr

/-- One row of the `Registers` sheet. -/
structure RegisterRow where
  blockName : CellVal
  registerName : CellVal
  offset : CellVal
  description : CellVal
  widthBits : CellVal
deriving DecidableEq, Repr

/-- One row of the `Fields` sheet. -/
structure FieldRow where
  registerName : CellVal
  fieldName : CellVal
  lsb : CellVal
  width : CellVal
  access : CellVal
  resetValue : CellVal
  description : CellVal
deriving DecidableEq, Repr

/-- The registers the script iterates for a block: the rows of
`registers_by_block.get_group(block_name)` where
`registers_by_block = df_registers.groupby('Block Name')` (line 69) and
`block_name` is the sanitized block name (lines 83, 99, 106).  `groupby`
keys rows by the raw cell value and keeps their original order, so the
group for the string `block_name` holds, in order, the rows whose raw
`'Block Name'` cell equals that string (a non-string cell never equals a
Python string). -/
def registersFor (regs : List RegisterRow) (name : String) : List RegisterRow :=
  regs.filter fun r => decide (r.blockName = CellVal.strVal name)

/-- The fields grouped under a register name, from
`fields_by_register = df_fields.groupby('Register Name')` (line 73) looked
up with the sanitized register name (lines 109, 127, 134). -/
def fieldsFor (fields : List FieldRow) (name : String) : List FieldRow :=
  fields.filter fun fl => decide (fl.registerName = CellVal.strVal name)

/-- The description pattern used at lines 85, 111 and 146 of the script:
`str(cell).strip() if pd.notna(cell) else dflt`. -/
def descOr (cell : CellVal) (dflt : String) : String :=
  if pdNotna cell then pyStrip (pyStr cell) else dflt

/-- Line 112 of the script:
`int(register['Width (bits)']) if pd.notna(register['Width (bits)']) else 32`. -/
def regWidthOf (cell : CellVal) : Except String Int :=
  if pdNotna cell then pyInt cell else .ok 32

/-- Line 145 of the script:
`int(field['Reset Value']) if pd.notna(field['Reset Value']) else 0`. -/
def resetValueOf (cell : CellVal) : Except String Int :=
  if pdNotna cell then pyInt cell else .ok 0

/-- Comparison on cells backing `sort_values('LSB')` (line 137): integer
cells compare numerically, as pandas does.  On the mixed-type columns
pandas would reject, cells are ranked `na`, then integers, then strings,
to keep the comparison total and transitive. -/
def cellLe : CellVal → CellVal → Bool
  | .na, _ => true
  | .intVal _, .na => false
  | .intVal m, .intVal n => m ≤ n
  | .intVal _, .strVal _ => true
  | .strVal _, .na => false
  | .strVal _, .intVal _ => false
  | .strVal s, .strVal t => decide (s ≤ t)

/-- Strict version of `cellLe`. -/
def cellLt (a b : CellVal) : Bool :=
  cellLe a b && !(cellLe b a)

/-- Row comparison used to sort a register's fields by their `LSB` cell. -/
def fieldLsbLe (a b : FieldRow) : Bool :=
  cellLe a.lsb b.lsb

/-- `register_fields.sort_values('LSB')` (line 137): the field rows
reordered so their `LSB` cells ascend. -/
def sortFields (l : List FieldRow) : List FieldRow :=
  l.mergeSort fieldLsbLe

/-- Line 143 of the script: `msb = lsb + width - 1`. -/
def msbOf (lsb width : Int) : Int :=
  lsb + width - 1

/-- Lines 139-167 of the script: emit one `field { ... } name[msb:lsb] = ...;`
construct.  All conversions happen, in source order, before any text is
produced, so a failing conversion yields the exception message instead. -/
def emitField (field : FieldRow) : Except String String := do
  let field_name := sanitize_name field.fieldName
  let lsb ← pyInt field.lsb
  let width ← pyInt field.width
  let msb := msbOf lsb width
  let access := pyStrip (pyStr field.access)
  let reset_value ← resetValueOf field.resetValue
  let field_desc := descOr field.description (field_name ++ " field")
  let (sw_access, onwrite) := access_to_rdl access
  let reset_bin ← pyFormatBinSpec reset_value width
  let onwriteLine :=
    match onwrite with
    | some ow => if ow = "" then "" else "            onwrite = " ++ ow ++ ";\n"
    | none => ""
  .ok ("        field \x7b\n"
    ++ "            name = \"" ++ field_name ++ "\";\n"
    ++ "            desc = \"" ++ field_desc ++ "\";\n"
    ++ "            sw = " ++ sw_access ++ ";\n"
    ++ "            hw = r;\n"
    ++ onwriteLine
    ++ "        \x7d " ++ field_name ++ "[" ++ toString msb ++ ":" ++ toString lsb
    ++ "] = " ++ toString width ++ "\x27b" ++ reset_bin ++ ";\n\n")

/-- The header text written for a register (lines 116-120). -/
def regHeader (reg_name reg_desc : String) (reg_width : Int) : String :=
  "    // Registro " ++ reg_name ++ "\n"
    ++ "    reg \x7b\n"
    ++ "        name = \"" ++ reg_name ++ "\";\n"
    ++ "        desc = \"" ++ reg_desc ++ "\";\n"
    ++ "        regwidth = " ++ toString reg_width ++ ";\n\n"

/-- The closing line of a register (lines 130 and 170). -/
def regClose (reg_name reg_offset : String) : String :=
  "    \x7d " ++ reg_name ++ " @ " ++ reg_offset ++ ";\n\n"

/-- Lines 108-170 of the script: emit one `reg { ... } name @ offset;`
construct, with a placeholder comment when the global `Fields` sheet has
no group for the sanitized register name. -/
def emitRegister (fields : List FieldRow) (register : RegisterRow) : Except String String := do
  let reg_name := sanitize_name register.registerName
  let reg_offset := pyStrip (pyStr register.offset)
  let reg_desc := descOr register.description (reg_name ++ " Register")
  let reg_width ← regWidthOf register.widthBits
  match fieldsFor fields reg_name with
  | [] =>
    .ok (regHeader reg_name reg_desc reg_width
      ++ "        // No se encontraron campos para este registro\n\n"
      ++ regClose reg_name reg_offset)
  | register_fields => do
    let bodies ← (sortFields register_fields).mapM emitField
    .ok (regHeader reg_name reg_desc reg_width
      ++ String.join bodies
      ++ regClose reg_name reg_offset)

/-- The header text written for a block (lines 90-92). -/
def blockHeader (block_name block_desc : String) : String :=
  "addrmap " ++ block_name ++ " \x7b\n"
    ++ "    name = \"" ++ block_name ++ "\";\n"
    ++ "    desc = \"" ++ block_desc ++ "\";\n\n"

/-- Lines 82-173 of the script: emit one `addrmap` construct, with a
placeholder comment when the `Registers` sheet has no group for the
sanitized block name.  (`base_address` is computed at line 84 but never
written.) -/
def emitBlock (regs : List RegisterRow) (fields : List FieldRow)
    (block : BlockRow) : Except String String := do
  let block_name := sanitize_name block.blockName
  let block_desc := descOr block.description (block_name ++ " Block")
  match registersFor regs block_name with
  | [] =>
    .ok (blockHeader block_name block_desc
      ++ "    // No se encontraron registros para este bloque\n\n"
      ++ "\x7d;\n\n")
  | block_registers => do
    let bodies ← block_registers.mapM (emitRegister fields)
    .ok (blockHeader block_name block_desc ++ String.join bodies ++ "\x7d;\n\n")

/-- The full text the script writes for a list of block rows. -/
def emitBlocks (regs : List RegisterRow) (fields : List FieldRow) :
    List BlockRow → Except String String
  | [] => .ok ""
  | b :: bs => do
    let s ← emitBlock regs fields b
    let t ← emitBlocks regs fields bs
    .ok (s ++ t)

/-- `generate_rdl_from_excel` after the three sheets have been loaded: the
content written to the output file (or the exception message that aborts
the run). -/
def generate_rdl_from_tables (blocks : List BlockRow) (regs : List RegisterRow)
    (fields : List FieldRow) : Except String String :=
  emitBlocks regs fields blocks

/-- The grouping relation the specification describes for comparison with
`registersFor`: the register rows whose raw `'Block Name'` cell equals the
block row's raw `'Block Name'` cell. -/
def registersForRawCell (regs : List RegisterRow) (blockCell : CellVal) : List RegisterRow :=
  regs.filter fun r => decide (r.blockName = blockCell)

/-- The sanitizer the specification describes for comparison with
`sanitize_name`: every whitespace character and every hyphen of the
stringified name replaced by an underscore. -/
def sanitizeSpecVersion (name : CellVal) : String :=
  ⟨(pyStr name).data.map fun c => if c.isWhitespace ∨ c = '-' then '_' else c⟩

/-- A block row whose name needs sanitizing. -/
def blockAB : BlockRow :=
  { blockName := .strVal "A B", baseAddress := .strVal "0x0", description := .na }

/-- A register row whose raw `'Block Name'` cell equals `blockAB`'s raw
cell. -/
def regAB : RegisterRow :=
  { blockName := .strVal "A B", registerName := .strVal "R1",
    offset := .strVal "0x0", description := .na, widthBits := .intVal 32 }

/-- A register row whose `'Width (bits)'` cell holds unparseable text. -/
def regBadWidth : RegisterRow :=
  { blockName := .strVal "B", registerName := .strVal "R1",
    offset := .strVal "0x0", description := .na, widthBits := .strVal "abc" }

/-- Two field rows of one register sharing the LSB value 0. -/
def fieldDup1 : FieldRow :=
  { registerName := .strVal "R1", fieldName := .strVal "F1", lsb := .intVal 0,
    width := .intVal 1, access := .strVal "rw", resetValue := .na, description := .na }

/-- Second field row with the same LSB value as `fieldDup1`. -/
def fieldDup2 : FieldRow :=
  { registerName := .strVal "R1", fieldName := .strVal "F2", lsb := .intVal 0,
    width := .intVal 1, access := .strVal "ro", resetValue := .na, description := .na }

deriving instance DecidableEq for Except

/-- The three failure kinds `generate_rdl_from_excel` distinguishes
(lines 181-191): a missing input file, a missing sheet or column
(`KeyError`), and any other exception. -/
inductive PipelineError where
  | fileNotFound (path : String)
  | keyError (key : String)
  | other (msg : String)
deriving DecidableEq, Repr

/-- The usage text printed when no input path is given (line 199). -/
def usageMessage : String :=
  "Uso: python excel_to_rdl.py <archivo_excel.xlsx> [archivo_salida.rdl]"

/-- The first line printed by each `except` handler (lines 182, 185, 189). -/
def failureMessage : PipelineError → String
  | .fileNotFound p => "Error: No se pudo encontrar el archivo " ++ p
  | .keyError k => "Error: No se encontro la columna o hoja esperada: " ++ k
  | .other m => "Error al procesar el archivo: " ++ m

/-- `generate_rdl_from_excel`'s outcome reporting: every failure kind is
caught inside the function and turned into printed text; none is
re-raised. -/
def handledMessages : Except PipelineError String → List String
  | .ok _ => ["Archivo RDL generado exitosamente"]
  | .error e => [failureMessage e]

/-- The `__main__` block (lines 193-213): `argv` includes the program name
as its first entry, so fewer than two entries means no input path was
given; that case prints the usage text and exits 1, every other case runs
the generator, reports its outcome, and falls off the end of the script
with exit code 0. -/
def scriptRun (argv : List String) (result : Except PipelineError String) :
    Nat × List String :=
  if argv.length < 2 then (1, [usageMessage])
  else (0, handledMessages result)

/-- C2: for every input string, `access_to_rdl` returns `('rw', None)`
(read-write, no side effect) when the lower-cased code is `"rw"`,
`('r', None)` (read-only, none) for `"ro"`, `('w', None)` (write-only,
none) for `"wo"`, `('w', 'woclr')` (write-only, clear-on-write) for
`"w1c"`, and `('r', None)` for every other string, never failing. -/
theorem C2_access_mapper (s : String) :
    (pyLower s = "rw" → access_to_rdl s = ("rw", none)) ∧
    (pyLower s = "ro" → access_to_rdl s = ("r", none)) ∧
    (pyLower s = "wo" → access_to_rdl s = ("w", none)) ∧
    (pyLower s = "w1c" → access_to_rdl s = ("w", some "woclr")) ∧
    (pyLower s ≠ "rw" → pyLower s ≠ "ro" → pyLower s ≠ "wo" → pyLower s ≠ "w1c" →
      access_to_rdl s = ("r", none)) := by
  refine ⟨?_, ?_, ?_, ?_, ?_⟩
  · intro h; unfold access_to_rdl; rw [h]; decide
  · intro h; unfold access_to_rdl; rw [h]; decide
  · intro h; unfold access_to_rdl; rw [h]; decide
  · intro h; unfold access_to_rdl; rw [h]; decide
  · intro h1 h2 h3 h4
    simp [access_to_rdl, access_map, List.lookup, beq_eq_false_iff_ne.mpr h1,
      beq_eq_false_iff_ne.mpr h2, beq_eq_false_iff_ne.mpr h3, beq_eq_false_iff_ne.mpr h4]

/-- Witness for C2 at the concrete codes `"RW"`, `"W1C"` and `"xyz"`. -/
theorem C2_access_mapper_witness :
    access_to_rdl "RW" = ("rw", none) ∧
    access_to_rdl "W1C" = ("w", some "woclr") ∧
    access_to_rdl "xyz" = ("r", none) :=
  ⟨(C2_access_mapper "RW").1 (by decide),
   (C2_access_mapper "W1C").2.2.2.1 (by decide),
   (C2_access_mapper "xyz").2.2.2.2 (by decide) (by decide) (by decide) (by decide)⟩

/-- C8 counterexample: `sanitize_name` does not replace every whitespace
character — an interior tab survives, and leading whitespace is removed
rather than replaced, so the output differs from the claim's sanitizer on
`"a\tb"` and on `" a"`. -/
theorem C8_sanitize_cex :
    sanitize_name (.strVal "a\tb") = "a\tb" ∧
    sanitizeSpecVersion (.strVal "a\tb") = "a_b" ∧
    sanitize_name (.strVal "a\tb") ≠ sanitizeSpecVersion (.strVal "a\tb") ∧
    sanitize_name (.strVal " a") = "a" ∧
    sanitizeSpecVersion (.strVal " a") = "_a" := by decide

/-- C8 amended: the sanitized identifier is the stringified name stripped
of leading and trailing whitespace and then with every space character and
every hyphen replaced by an underscore; all other characters — including
interior tabs and newlines — pass through unchanged. -/
theorem C8_sanitize_amended (name : CellVal) :
    (sanitize_name name).data =
      (pyStrip (pyStr name)).data.map fun c => if c = ' ' ∨ c = '-' then '_' else c := by
  unfold sanitize_name pyReplaceChar
  simp only [List.map_map]
  congr 1
  funext c
  by_cases h1 : c = ' ' <;> by_cases h2 : c = '-' <;> simp [h1, h2, Function.comp]

/-- C1 counterexample: a block named `"A B"` and a register whose raw
`'Block Name'` cell is the identical string `"A B"`.  The claim puts the
register inside the block's addrmap, but the script looks up the sanitized
name `"A_B"` among the raw group keys, finds nothing, and emits the
empty-block placeholder with no register construct at all. -/
theorem C1_grouping_cex :
    blockAB.blockName = regAB.blockName ∧
    registersFor [regAB] (sanitize_name blockAB.blockName) = [] ∧
    registersForRawCell [regAB] blockAB.blockName = [regAB] ∧
    emitBlock [regAB] [] blockAB =
      .ok ("addrmap A_B \x7b\n    name = \"A_B\";\n    desc = \"A_B Block\";\n\n"
        ++ "    // No se encontraron registros para este bloque\n\n\x7d;\n\n") := by
  decide

/-- C1 amended: the register rows emitted inside a block's addrmap are
exactly the register rows whose raw `'Block Name'` cell is string-equal to
the *sanitized* block name (exact equality, no fuzzy matching), preserving
original row order; likewise the field rows emitted inside a register are
exactly those whose raw `'Register Name'` cell equals the sanitized
register name.  (`emitBlock` iterates `registersFor regs (sanitize_name
block.blockName)` and `emitRegister` iterates `fieldsFor fields
(sanitize_name register.registerName)`.) -/
theorem C1_grouping_amended (regs : List RegisterRow) (fields : List FieldRow)
    (name : String) :
    (registersFor regs name).Sublist regs ∧
    (∀ r, r ∈ registersFor regs name ↔ r ∈ regs ∧ r.blockName = CellVal.strVal name) ∧
    (fieldsFor fields name).Sublist fields ∧
    (∀ fl, fl ∈ fieldsFor fields name ↔
      fl ∈ fields ∧ fl.registerName = CellVal.strVal name) := by
  refine ⟨List.filter_sublist _, ?_, List.filter_sublist _, ?_⟩
  · intro r; simp [registersFor, List.mem_filter]
  · intro fl; simp [fieldsFor, List.mem_filter]

/-- C10: the emitted text is a function of the three tables alone — equal
tables give byte-identical output. -/
theorem C10_deterministic (b r f b2 r2 f2 : _) (hb : b = b2) (hr : r = r2) (hf : f = f2) :
    generate_rdl_from_tables b r f = generate_rdl_from_tables b2 r2 f2 := by
  subst hb; subst hr; subst hf; rfl

/-- Witness for C10 at concrete equal tables. -/
theorem C10_deterministic_witness :
    generate_rdl_from_tables [blockAB] [regAB] [fieldDup1] =
      generate_rdl_from_tables [blockAB] [regAB] [fieldDup1] :=
  C10_deterministic [blockAB] [regAB] [fieldDup1] [blockAB] [regAB] [fieldDup1] rfl rfl rfl

/-- `cellLe` is transitive. -/
theorem cellLe_trans (a b c : CellVal) (hab : cellLe a b = true) (hbc : cellLe b c = true) :
    cellLe a c = true := by
  cases a <;> cases b <;> cases c <;> simp_all [cellLe] <;>
    first
    | omega
    | exact le_trans hab hbc

/-- `cellLe` is total. -/
theorem cellLe_total (a b : CellVal) : (cellLe a b || cellLe b a) = true := by
  cases a <;> cases b <;> simp [cellLe] <;> first | omega | exact le_total _ _

/-- `cellLe` between distinct cells is strict. -/
theorem cellLe_ne_lt (a b : CellVal) (h : cellLe a b = true) (hne : a ≠ b) :
    cellLt a b = true := by
  cases a <;> cases b
  · exact absurd rfl hne
  · simp [cellLt, cellLe]
  · simp [cellLt, cellLe]
  · simp [cellLe] at h
  · rename_i m n
    have hmn : m ≤ n := by simpa [cellLe] using h
    have hne2 : m ≠ n := fun he => hne (by rw [he])
    simp [cellLt, cellLe]
    omega
  · simp [cellLt, cellLe]
  · simp [cellLe] at h
  · simp [cellLe] at h
  · rename_i s t
    have hst : s ≤ t := by simpa [cellLe] using h
    have hne2 : s ≠ t := fun he => hne (by rw [he])
    have hts : ¬ t ≤ s := fun hts => hne2 (le_antisymm hst hts)
    simp [cellLt, cellLe, hst, hts]

/-- C4 counterexample: two field rows of one register sharing LSB 0.  In
whatever order `sort_values` leaves them, the emitted LSB sequence is
`0, 0`: non-decreasing but not strictly ascending, so the claim's "strictly
ascending" fails for this register. -/
theorem C4_field_order_cex :
    ((sortFields [fieldDup1, fieldDup2]).map fun fl => fl.lsb) =
      [CellVal.intVal 0, CellVal.intVal 0] ∧
    ¬ (sortFields [fieldDup1, fieldDup2]).Pairwise
        (fun a b => cellLt a.lsb b.lsb = true) := by
  have hperm : List.Perm (sortFields [fieldDup1, fieldDup2]) [fieldDup1, fieldDup2] :=
    List.mergeSort_perm _ _
  have hmap : ((sortFields [fieldDup1, fieldDup2]).map fun fl => fl.lsb).Perm
      (List.replicate 2 (CellVal.intVal 0)) := hperm.map _
  have heq := List.perm_replicate.mp hmap
  have heq2 : ((sortFields [fieldDup1, fieldDup2]).map fun fl => fl.lsb) =
      [CellVal.intVal 0, CellVal.intVal 0] := by simpa [List.replicate] using heq
  refine ⟨heq2, ?_⟩
  intro hpw
  obtain ⟨a, b, hab⟩ := List.length_eq_two.mp hperm.length_eq
  rw [hab] at heq2 hpw
  simp at heq2
  have hlt := (List.pairwise_cons.mp hpw).1 b (by simp)
  rw [heq2.1, heq2.2] at hlt
  simp [cellLt, cellLe] at hlt

/-- C4 amended: the emitted field order is a permutation of the register's
field rows arranged in ascending (non-decreasing) LSB order; the order is
strictly ascending whenever the LSB values are pairwise distinct.
(`emitRegister` walks `sortFields register_fields`.) -/
theorem C4_field_order_amended (l : List FieldRow) :
    List.Perm (sortFields l) l ∧
    (sortFields l).Pairwise (fun a b => cellLe a.lsb b.lsb = true) ∧
    (l.Pairwise (fun a b => a.lsb ≠ b.lsb) →
      (sortFields l).Pairwise (fun a b => cellLt a.lsb b.lsb = true)) := by
  have hperm : List.Perm (sortFields l) l := List.mergeSort_perm l fieldLsbLe
  have htrans : ∀ a b c : FieldRow, fieldLsbLe a b → fieldLsbLe b c → fieldLsbLe a c :=
    fun a b c hab hbc => cellLe_trans _ _ _ hab hbc
  have htotal : ∀ a b : FieldRow, fieldLsbLe a b || fieldLsbLe b a :=
    fun a b => cellLe_total _ _
  have hsorted : (sortFields l).Pairwise (fun a b => fieldLsbLe a b = true) :=
    List.sorted_mergeSort htrans htotal l
  refine ⟨hperm, hsorted.imp ?_, ?_⟩
  · intro a b h; exact h
  · intro hne
    have hne' : (sortFields l).Pairwise (fun a b => a.lsb ≠ b.lsb) :=
      (hperm.pairwise_iff fun h => h.symm).mpr hne
    exact (hsorted.and hne').imp fun h => cellLe_ne_lt _ _ h.1 h.2

/-- C5: a block whose sanitized name matches no register group emits
exactly its header, the placeholder comment, and the closing brace; a
register whose sanitized name matches no field group emits exactly its
header, the placeholder comment, and its closing line; and emission always
continues with the next sibling block. -/
theorem C5_empty_placeholders :
    (∀ (regs : List RegisterRow) (fields : List FieldRow) (b : BlockRow),
      registersFor regs (sanitize_name b.blockName) = [] →
      emitBlock regs fields b = .ok
        (blockHeader (sanitize_name b.blockName)
            (descOr b.description (sanitize_name b.blockName ++ " Block"))
          ++ "    // No se encontraron registros para este bloque\n\n"
          ++ "\x7d;\n\n")) ∧
    (∀ (fields : List FieldRow) (r : RegisterRow) (w : Int),
      fieldsFor fields (sanitize_name r.registerName) = [] →
      regWidthOf r.widthBits = .ok w →
      emitRegister fields r = .ok
        (regHeader (sanitize_name r.registerName)
            (descOr r.description (sanitize_name r.registerName ++ " Register")) w
          ++ "        // No se encontraron campos para este registro\n\n"
          ++ regClose (sanitize_name r.registerName) (pyStrip (pyStr r.offset)))) ∧
    (∀ (regs : List RegisterRow) (fields : List FieldRow) (b : BlockRow)
        (bs : List BlockRow) (s t : String),
      emitBlock regs fields b = .ok s → emitBlocks regs fields bs = .ok t →
      emitBlocks regs fields (b :: bs) = .ok (s ++ t)) := by
  refine ⟨?_, ?_, ?_⟩
  · intro regs fields b h
    simp only [emitBlock]
    rw [h]
  · intro fields r w hf hw
    simp only [emitRegister, hw, hf]
    rfl
  · intro regs fields b bs s t h1 h2
    simp only [emitBlocks, h1, h2]
    rfl

/-- Witness for C5 at a concrete empty block and empty register. -/
theorem C5_empty_placeholders_witness :
    emitBlock [] [] blockAB = .ok
      (blockHeader (sanitize_name blockAB.blockName)
          (descOr blockAB.description (sanitize_name blockAB.blockName ++ " Block"))
        ++ "    // No se encontraron registros para este bloque\n\n"
        ++ "\x7d;\n\n") ∧
    emitRegister [] regAB = .ok
      (regHeader (sanitize_name regAB.registerName)
          (descOr regAB.description (sanitize_name regAB.registerName ++ " Register")) 32
        ++ "        // No se encontraron campos para este registro\n\n"
        ++ regClose (sanitize_name regAB.registerName) (pyStrip (pyStr regAB.offset))) :=
  ⟨C5_empty_placeholders.1 [] [] blockAB (by decide),
   C5_empty_placeholders.2.1 [] regAB 32 (by decide) (by decide)⟩

/-- C7 counterexample: a present but unparseable `'Width (bits)'` cell does
not fall back to 32 — `int('abc')` raises, so the register (and the whole
run) aborts with an error instead of emitting `regwidth = 32;`. -/
theorem C7_regwidth_cex :
    regWidthOf (.strVal "abc") ≠ .ok 32 ∧
    (emitRegister [] regBadWidth).isOk = false := by decide

/-- C7 amended: a missing (`NaN`) `'Width (bits)'` cell yields
`regwidth = 32`; an integer cell yields its own value; a present but
unparseable cell raises `ValueError`, aborting the run as an unclassified
failure with no regwidth emitted. -/
theorem C7_regwidth_amended (c : CellVal) :
    (c = .na → regWidthOf c = .ok 32) ∧
    (∀ n : Int, c = .intVal n → regWidthOf c = .ok n) ∧
    (∀ s : String, c = .strVal s → pyIntOfString s = none →
      regWidthOf c = .error ("invalid literal for int() with base 10: " ++ s)) := by
  refine ⟨?_, ?_, ?_⟩
  · rintro rfl; rfl
  · rintro n rfl; rfl
  · rintro s rfl hp; simp [regWidthOf, pdNotna, pyInt, hp]

/-- Witness for C7 at a missing cell, the integer 16 and the text "abc". -/
theorem C7_regwidth_witness :
    regWidthOf CellVal.na = .ok 32 ∧
    regWidthOf (.intVal 16) = .ok 16 ∧
    regWidthOf (.strVal "abc") = .error ("invalid literal for int() with base 10: " ++ "abc") :=
  ⟨(C7_regwidth_amended .na).1 rfl,
   (C7_regwidth_amended (.intVal 16)).2.1 16 rfl,
   (C7_regwidth_amended (.strVal "abc")).2.2 "abc" rfl (by decide)⟩

/-- C6: with fewer than two `argv` entries (no input path) the script
prints the usage text and exits 1; with an input path it exits 0 whatever
the generator's outcome — the file-not-found, missing-structure and
unclassified failures are each caught, reported as a printed message, and
never turned into a nonzero exit code. -/
theorem C6_exit_codes (argv : List String) (result : Except PipelineError String) :
    (argv.length < 2 → scriptRun argv result = (1, [usageMessage])) ∧
    (2 ≤ argv.length → (scriptRun argv result).1 = 0) ∧
    (2 ≤ argv.length → ∀ e, result = .error e →
      (scriptRun argv result).2 = [failureMessage e]) := by
  refine ⟨?_, ?_, ?_⟩
  · intro h; simp [scriptRun, h]
  · intro h; simp [scriptRun, Nat.not_lt.mpr h]
  · rintro h e rfl; simp [scriptRun, Nat.not_lt.mpr h, handledMessages]

/-- Witness for C6: one invocation without an input path and one whose run
fails with file-not-found. -/
theorem C6_exit_codes_witness :
    scriptRun ["parseo_excel.py"] (.ok "") = (1, [usageMessage]) ∧
    (scriptRun ["parseo_excel.py", "in.xlsx"] (.error (.fileNotFound "in.xlsx"))).1 = 0 ∧
    (scriptRun ["parseo_excel.py", "in.xlsx"] (.error (.fileNotFound "in.xlsx"))).2 =
      [failureMessage (.fileNotFound "in.xlsx")] :=
  ⟨(C6_exit_codes ["parseo_excel.py"] (.ok "")).1 (by decide),
   (C6_exit_codes ["parseo_excel.py", "in.xlsx"] (.error (.fileNotFound "in.xlsx"))).2.1
     (by decide),
   (C6_exit_codes ["parseo_excel.py", "in.xlsx"] (.error (.fileNotFound "in.xlsx"))).2.2
     (by decide) (.fileNotFound "in.xlsx") rfl⟩

/-- A character surviving at the front of `dropWhile p` fails `p`. -/
theorem head_dropWhile_not (p : Char → Bool) (l : List Char) (c : Char)
    (h : (l.dropWhile p).head? = some c) : p c = false := by
  induction l with
  | nil => simp [List.dropWhile] at h
  | cons a t ih =>
    by_cases hp : p a
    · rw [List.dropWhile_cons] at h
      simp [hp] at h
      exact ih h
    · rw [List.dropWhile_cons] at h
      simp [hp] at h
      rw [← h]
      simpa using hp

/-- The last character of a stripped list is not whitespace. -/
theorem stripChars_getLast (l : List Char) (c : Char)
    (h : (stripChars l).getLast? = some c) : c.isWhitespace = false := by
  unfold stripChars at h
  rw [List.getLast?_reverse] at h
  exact head_dropWhile_not _ _ _ h

/-- Stripping only removes characters from the two ends. -/
theorem stripChars_decomp (l : List Char) :
    ∃ u v, l = u ++ stripChars l ++ v := by
  have h1 : (l.dropWhile Char.isWhitespace) <:+ l := List.dropWhile_suffix _
  obtain ⟨u, hu⟩ := h1
  have h2 : ((l.dropWhile Char.isWhitespace).reverse.dropWhile Char.isWhitespace) <:+
      (l.dropWhile Char.isWhitespace).reverse := List.dropWhile_suffix _
  obtain ⟨v, hv⟩ := h2
  refine ⟨u, v.reverse, ?_⟩
  have h3 : l.dropWhile Char.isWhitespace = stripChars l ++ v.reverse := by
    have h4 := congrArg List.reverse hv
    simpa [stripChars, List.reverse_append] using h4.symm
  calc l = u ++ l.dropWhile Char.isWhitespace := hu.symm
  _ = u ++ (stripChars l ++ v.reverse) := by rw [h3]
  _ = u ++ stripChars l ++ v.reverse := (List.append_assoc u (stripChars l) v.reverse).symm

/-- The first character of a stripped list is not whitespace. -/
theorem stripChars_head (l : List Char) (c : Char)
    (h : (stripChars l).head? = some c) : c.isWhitespace = false := by
  have h2 : ((l.dropWhile Char.isWhitespace).reverse.dropWhile Char.isWhitespace) <:+
      (l.dropWhile Char.isWhitespace).reverse := List.dropWhile_suffix _
  obtain ⟨v, hv⟩ := h2
  have h3 : l.dropWhile Char.isWhitespace = stripChars l ++ v.reverse := by
    have h4 := congrArg List.reverse hv
    simpa [stripChars, List.reverse_append] using h4.symm
  cases hs : stripChars l with
  | nil => rw [hs] at h; simp at h
  | cons x xs =>
    rw [hs] at h
    simp at h
    have hhd : (l.dropWhile Char.isWhitespace).head? = some x := by
      rw [h3, hs]; simp
    have := head_dropWhile_not Char.isWhitespace l x hhd
    subst h
    simpa using this

/-- C9: a missing Description cell defaults to the sanitized name followed
by " Block", " Register" or " field" (the defaults `emitBlock`,
`emitRegister` and `emitField` pass to `descOr`); a present cell is used as
its stringified text stripped of surrounding whitespace — the stripped text
starts and ends with non-whitespace and is obtained from the cell text by
removing characters at the two ends only. -/
theorem C9_descriptions (c : CellVal) (n d s : String) :
    (c = .na → descOr c (n ++ " Block") = n ++ " Block"
      ∧ descOr c (n ++ " Register") = n ++ " Register"
      ∧ descOr c (n ++ " field") = n ++ " field") ∧
    (pdNotna c = true → descOr c d = pyStrip (pyStr c)) ∧
    descOr (.strVal s) d = pyStrip s ∧
    (∀ ch, (pyStrip s).data.head? = some ch → ch.isWhitespace = false) ∧
    (∀ ch, (pyStrip s).data.getLast? = some ch → ch.isWhitespace = false) ∧
    (∃ u v, s.data = u ++ (pyStrip s).data ++ v) := by
  refine ⟨?_, ?_, rfl, ?_, ?_, ?_⟩
  · rintro rfl; exact ⟨rfl, rfl, rfl⟩
  · intro h; simp [descOr, h]
  · intro ch hch; exact stripChars_head _ _ hch
  · intro ch hch; exact stripChars_getLast _ _ hch
  · exact stripChars_decomp _

/-- Witness for C9 at a missing cell and at the text " y ". -/
theorem C9_descriptions_witness :
    descOr CellVal.na ("X" ++ " Block") = "X" ++ " Block" ∧
    descOr (.strVal " y ") "d" = pyStrip (pyStr (.strVal " y ")) :=
  ⟨((C9_descriptions CellVal.na "X" "d" " y ").1 rfl).1,
   (C9_descriptions (.strVal " y ") "X" "d" " y ").2.1 rfl⟩

/-- Length of the binary digit list: one digit for zero, otherwise one more
than the base-2 logarithm. -/
theorem natBinDigits_length (v : Nat) :
    (natBinDigits v).length = if v = 0 then 1 else Nat.log 2 v + 1 := by
  by_cases hv : v = 0
  · simp [natBinDigits, hv]
  · simp [natBinDigits, hv, Nat.digits_len 2 v one_lt_two hv]

/-- C3: for non-negative LSB, width ≥ 1 and non-negative reset value, the
computed MSB is LSB + width − 1; the format call never rejects the value;
the reset binary string has length exactly `width` when the value fits in
`width` bits and is strictly longer (never truncated) when it does not. -/
theorem C3_bitrange_reset (lsb width reset : Nat) (hw : 1 ≤ width) :
    msbOf lsb width = ((lsb + width - 1 : Nat) : Int) ∧
    pyFormatBinSpec reset width = .ok (pyFormatBin reset width) ∧
    (reset ≤ 2 ^ width - 1 → (pyFormatBin reset width).length = width) ∧
    (2 ^ width - 1 < reset → width < (pyFormatBin reset width).length) := by
  have h2p : 1 ≤ 2 ^ width := Nat.one_le_two_pow
  have hnn : ¬((reset : Int) < 0) := by omega
  have hpb : pyFormatBin (reset : Int) width = pyFormatBinNat reset width := by
    simp [pyFormatBin, hnn]
  refine ⟨?_, ?_, ?_, ?_⟩
  · simp only [msbOf]; omega
  · have : ¬((width : Int) < 0) := by omega
    simp [pyFormatBinSpec, this]
  · intro hr
    have hlt : reset < 2 ^ width := by omega
    have hlen : (natBinDigits reset).length ≤ width := by
      rw [natBinDigits_length]
      by_cases h0 : reset = 0
      · simp [h0]; omega
      · simp only [h0, if_false]
        have := (Nat.lt_pow_iff_log_lt one_lt_two h0).mp hlt
        omega
    rw [hpb]
    simp [pyFormatBinNat, leftPadZeros, String.length]
    omega
  · intro hr
    have hge : 2 ^ width ≤ reset := by omega
    have h0 : reset ≠ 0 := by omega
    have hlen : width < (natBinDigits reset).length := by
      rw [natBinDigits_length]
      simp only [h0, if_false]
      have := (Nat.pow_le_iff_le_log one_lt_two h0).mp hge
      omega
    rw [hpb]
    simp [pyFormatBinNat, leftPadZeros, String.length]
    omega

/-- Witness for C3 at the specification's own example: LSB 4, width 3,
reset value 5. -/
theorem C3_bitrange_reset_witness :
    1 ≤ 3 ∧ msbOf 4 3 = ((4 + 3 - 1 : Nat) : Int) ∧ (pyFormatBin 5 3).length = 3 :=
  ⟨by decide, (C3_bitrange_reset 4 3 5 (by decide)).1,
   (C3_bitrange_reset 4 3 5 (by decide)).2.2.1 (by decide)⟩

/-- Witness for the amended C4 at a singleton field list, whose LSB values
are trivially pairwise distinct. -/
theorem C4_field_order_amended_witness :
    List.Perm (sortFields [fieldDup1]) [fieldDup1] ∧
    (sortFields [fieldDup1]).Pairwise (fun a b => cellLt a.lsb b.lsb = true) :=
  ⟨(C4_field_order_amended [fieldDup1]).1,
   (C4_field_order_amended [fieldDup1]).2.2 (by simp)⟩
